import Mathlib

/-!
Verification of the filtering-and-aggregation engine of the supply-chain
dashboard (src/app.py).  The pandas DataFrame is embedded as an ordered list
of `Row` records; calendar timestamps are modelled as day numbers (`Nat`),
money amounts as exact rationals (`ℚ`).
-/

namespace SupplyChain

/-- One row of the loaded source table (src/app.py: columns consumed by
`kpi_section`, `charts_section` and `sidebar_filters`). -/
structure Row where
  order_id : Nat
  order_date : Nat
  ship_date : Nat
  delivery_date : Nat
  units_sold : Nat
  unit_price : ℚ
  shipping_cost : ℚ
  fulfillment_cost : ℚ
  delivery_status : String
  region : String
  warehouse_id : String
  product_category : String
deriving DecidableEq, Repr

abbrev Table := List Row

/-! ### Metric deriver (src/app.py lines 25-29, 50-51, 124-125) -/

/-- `df["order_value"] = df["units_sold"] * df["unit_price"]` (line 25). -/
def order_value (r : Row) : ℚ := (r.units_sold : ℚ) * r.unit_price

/-- `df["total_cost"] = df["shipping_cost"] + df["fulfillment_cost"]` (line 26). -/
def total_cost (r : Row) : ℚ := r.shipping_cost + r.fulfillment_cost

/-- `df["profit"] = df["order_value"] - df["total_cost"]` (line 27). -/
def profit (r : Row) : ℚ := order_value r - total_cost r

/-- `df["delivery_days"] = (df["delivery_date"] - df["ship_date"]).dt.days`
(line 28); with whole-day timestamps the pandas day difference is exact. -/
def delivery_days (r : Row) : Int := (r.delivery_date : Int) - (r.ship_date : Int)

/-- `df["is_late"] = df["delivery_status"].eq("Late")` (line 29). -/
def is_late (r : Row) : Bool := r.delivery_status == "Late"

/-! ### Filter engine (src/app.py lines 156-212) -/

/-- The user-selected filter state gathered by `sidebar_filters`:
multiselect values and the normalized date interval endpoints
(`start_ts`, `end_ts`, lines 200-201). -/
structure Criteria where
  regions : List String
  warehouses : List String
  categories : List String
  start_ts : Nat
  end_ts : Nat
deriving DecidableEq, Repr

/-- The boolean mask of lines 204-210: `df["region"].isin(regions) &
df["warehouse_id"].isin(warehouses) & df["product_category"].isin(categories)
& (df["order_date"] >= start_ts) & (df["order_date"] <= end_ts)`. -/
def rowMask (c : Criteria) (r : Row) : Bool :=
  c.regions.contains r.region &&
  c.warehouses.contains r.warehouse_id &&
  c.categories.contains r.product_category &&
  decide (c.start_ts ≤ r.order_date) &&
  decide (r.order_date ≤ c.end_ts)

/-- `df.loc[mask]` (line 212): the row-wise subset keeping source order. -/
def applyFilter (t : Table) (c : Criteria) : Table := t.filter (rowMask c)

/-! ### KPI summarizer (src/app.py lines 23-36) -/

/-- The six scalar metrics of `kpi_section`. -/
structure KPIs where
  total_orders : Nat
  total_revenue : ℚ
  total_profit : ℚ
  on_time_rate : ℚ
  avg_delivery_days : ℚ
  avg_fulfillment_cost : ℚ
deriving DecidableEq, Repr

/-- `100 * (1 - x.mean())` for a boolean `is_late` column (lines 34 and 108):
the mean of a boolean pandas series is the count of `True` over the length. -/
def onTimeRate (t : Table) : ℚ :=
  100 * (1 - ((t.filter is_late).length : ℚ) / (t.length : ℚ))

/-- `kpi_section` (lines 23-36): derives the five columns on a copy and
reduces them to the six KPIs.  `df["is_late"].mean()` on a boolean pandas
column is the count of `True` divided by the row count. -/
def kpi_section (t : Table) : KPIs where
  total_orders := t.length
  total_revenue := (t.map order_value).sum
  total_profit := (t.map profit).sum
  on_time_rate := onTimeRate t
  avg_delivery_days := (t.map (fun r => (delivery_days r : ℚ))).sum / (t.length : ℚ)
  avg_fulfillment_cost := (t.map Row.fulfillment_cost).sum / (t.length : ℚ)

/-! ### Mask variants with one predicate dropped, for filter monotonicity -/

/-- The mask of lines 204-210 with the region predicate removed. -/
def rowMaskNoRegion (c : Criteria) (r : Row) : Bool :=
  c.warehouses.contains r.warehouse_id &&
  c.categories.contains r.product_category &&
  decide (c.start_ts ≤ r.order_date) &&
  decide (r.order_date ≤ c.end_ts)

/-- The mask of lines 204-210 with the warehouse predicate removed. -/
def rowMaskNoWarehouse (c : Criteria) (r : Row) : Bool :=
  c.regions.contains r.region &&
  c.categories.contains r.product_category &&
  decide (c.start_ts ≤ r.order_date) &&
  decide (r.order_date ≤ c.end_ts)

/-- The mask of lines 204-210 with the category predicate removed. -/
def rowMaskNoCategory (c : Criteria) (r : Row) : Bool :=
  c.regions.contains r.region &&
  c.warehouses.contains r.warehouse_id &&
  decide (c.start_ts ≤ r.order_date) &&
  decide (r.order_date ≤ c.end_ts)

/-- The mask of lines 204-210 with the date-range predicate removed. -/
def rowMaskNoDate (c : Criteria) (r : Row) : Bool :=
  c.regions.contains r.region &&
  c.warehouses.contains r.warehouse_id &&
  c.categories.contains r.product_category

/-! ### Aggregation builder (src/app.py lines 56-135)

`DataFrame.groupby(key)` with the default `sort=True` lists one group per
distinct observed key value, the keys sorted ascending; each group holds
the rows carrying that key, and groups with zero rows never appear. -/

/-- The group keys produced by `df.groupby(keyOf)`: the distinct observed
values of the key column, sorted ascending (pandas default `sort=True`). -/
def groupKeys {K : Type} [LinearOrder K] (keyOf : Row → K) (t : Table) : List K :=
  List.insertionSort (fun a b => a ≤ b) (t.map keyOf).dedup

/-- The rows of `t` falling into the group of key value `k`. -/
def groupRows {K : Type} [DecidableEq K] (keyOf : Row → K) (k : K) (t : Table) :
    Table :=
  t.filter (fun r => decide (keyOf r = k))

/-- `orders_by_date` (lines 56-63): group by `order_date`, count `order_id`
and sum `order_value` per date. -/
def orders_by_date (t : Table) : List (Nat × Nat × ℚ) :=
  (groupKeys Row.order_date t).map fun d =>
    (d, (groupRows Row.order_date d t).length,
        ((groupRows Row.order_date d t).map order_value).sum)

/-- `revenue_by_region` (lines 90-94): group by `region`, sum `order_value`. -/
def revenue_by_region (t : Table) : List (String × ℚ) :=
  (groupKeys Row.region t).map fun k =>
    (k, ((groupRows Row.region k t).map order_value).sum)

/-- `ontime_by_wh` (lines 105-110): group by `warehouse_id`, per-group
`100 * (1 - is_late.mean())`. -/
def ontime_by_wh (t : Table) : List (String × ℚ) :=
  (groupKeys Row.warehouse_id t).map fun k =>
    (k, onTimeRate (groupRows Row.warehouse_id k t))

/-- `perf_by_cat` (lines 127-135): group by `product_category`, sum of
`order_value`, sum of `profit`, mean of `delivery_days`. -/
def perf_by_cat (t : Table) : List (String × ℚ × ℚ × ℚ) :=
  (groupKeys Row.product_category t).map fun k =>
    (k, ((groupRows Row.product_category k t).map order_value).sum,
        ((groupRows Row.product_category k t).map profit).sum,
        ((groupRows Row.product_category k t).map
            (fun r => (delivery_days r : ℚ))).sum /
          ((groupRows Row.product_category k t).length : ℚ))

/-- The first-occurrence distinct-value order of a key column: each distinct
key value listed at the position of its first appearance in the table. -/
def firstOccurrenceKeys {K : Type} [DecidableEq K] (keyOf : Row → K)
    (t : Table) : List K :=
  t.foldl (fun acc r => if keyOf r ∈ acc then acc else acc ++ [keyOf r]) []

/-! ### The three-row example table of spec section 8 -/

/-- Row 1 of the section-8 example: US, W1, Electronics, units 2, price 10,
ship cost 1, fulfillment cost 1, Late. -/
def exRow1 : Row := ⟨1, 1, 1, 2, 2, 10, 1, 1, "Late", "US", "W1", "Electronics"⟩

/-- Row 2 of the section-8 example: US, W2, Electronics, units 1, price 20,
ship cost 2, fulfillment cost 2, On Time. -/
def exRow2 : Row := ⟨2, 1, 1, 2, 1, 20, 2, 2, "On Time", "US", "W2", "Electronics"⟩

/-- Row 3 of the section-8 example: EU, W1, Books, units 5, price 5,
ship cost 1, fulfillment cost 1, On Time. -/
def exRow3 : Row := ⟨3, 1, 1, 2, 5, 5, 1, 1, "On Time", "EU", "W1", "Books"⟩

/-- The three-row example table of spec section 8. -/
def exTable : Table := [exRow1, exRow2, exRow3]

/-- Criteria narrowing the example table to region US, every other
dimension left at its observed default. -/
def exCriteriaUS : Criteria := ⟨["US"], ["W1", "W2"], ["Electronics", "Books"], 1, 1⟩

/-! ### Date-range normalization and orchestration (src/app.py lines 177-238) -/

/-- The value returned by the date widget (line 182): either a single date
or a tuple of dates of any length. -/
inductive DateInput where
  | single (d : Nat)
  | tuple (ds : List Nat)
deriving DecidableEq, Repr

/-- `df["order_date"].min()` (line 178); only ever used on a loaded,
non-empty table. -/
def minDate (t : Table) : Nat :=
  match t.map Row.order_date with
  | [] => 0
  | d :: ds => ds.foldl min d

/-- `df["order_date"].max()` (line 179). -/
def maxDate (t : Table) : Nat :=
  match t.map Row.order_date with
  | [] => 0
  | d :: ds => ds.foldl max d

/-- The widget-output normalization of lines 188-197: a two-element tuple is
the interval itself, a one-element tuple or a bare date is collapsed to a
point interval, and any other tuple falls back to the full observed span. -/
def normalizeDateRange (minD maxD : Nat) : DateInput → Nat × Nat
  | .single d => (d, d)
  | .tuple ds =>
    match ds with
    | [s, e] => (s, e)
    | [d] => (d, d)
    | _ => (minD, maxD)

/-- `sidebar_filters` (lines 156-212): normalizes the date widget output
against the source table's observed span and applies the filter mask. -/
def sidebar_filters (df : Table) (regions warehouses categories : List String)
    (dateRange : DateInput) : Table :=
  let se := normalizeDateRange (minDate df) (maxDate df) dateRange
  applyFilter df ⟨regions, warehouses, categories, se.1, se.2⟩

/-- The outcome of one render pass of the module-level logic
(lines 217-238). -/
inductive RenderOutcome where
  | missingInput
  | noData
  | dashboard (filteredCount : Nat) (kpis : KPIs)
      (ordersByDate : List (Nat × Nat × ℚ)) (revenueByRegion : List (String × ℚ))
      (ontimeByWh : List (String × ℚ)) (perfByCat : List (String × ℚ × ℚ × ℚ))
deriving DecidableEq, Repr

/-- The module-level orchestration on a loaded table (lines 230-238): apply
the sidebar filter; on zero rows report the no-data state, otherwise run the
KPI summarizer and the aggregation builder on the filtered table. -/
def renderLoaded (df : Table) (regions warehouses categories : List String)
    (dateRange : DateInput) : RenderOutcome :=
  let filtered := sidebar_filters df regions warehouses categories dateRange
  if filtered.length = 0 then
    RenderOutcome.noData
  else
    RenderOutcome.dashboard filtered.length (kpi_section filtered)
      (orders_by_date filtered) (revenue_by_region filtered)
      (ontime_by_wh filtered) (perf_by_cat filtered)

/-! ### Loader (src/app.py lines 16-20)

`load_data` is a single call into the external CSV parser
(`pd.read_csv(file, parse_dates=["order_date", "ship_date", "delivery_date"])`),
whose parsing code is library code not present in this repository; its
behavior is modelled from the spec below. -/

/-- An uploaded CSV: a header row naming the columns, and data rows of
cells, positionally aligned with the header. -/
structure CSV where
  header : List String
  rows : List (List String)
deriving DecidableEq, Repr

/-- The required columns of spec section 3. -/
def requiredColumns : List String :=
  ["order_id", "order_date", "ship_date", "delivery_date", "units_sold",
   "unit_price", "shipping_cost", "fulfillment_cost", "delivery_status",
   "region", "warehouse_id", "product_category"]

/-- The failure condition of the loader contract. -/
inductive LoadError where
  | malformedInput
deriving DecidableEq, Repr

/-- The cell of a data row under a named header column. -/
def getCell (header row : List String) (c : String) : Option String :=
  (header.findIdx? (fun s => s == c)).bind (fun i => row[i]?)

/-- Modelled from the spec: parsing of a numeral cell.  Calendar timestamps
are abstracted as day numbers throughout this development, and numeric
amounts as whole-number literals, so a cell parses iff it is a string of
decimal digits. -/
def parseNumeral (s : String) : Option Nat :=
  if s.data ≠ [] ∧ s.data.all Char.isDigit then
    some (s.data.foldl (fun n c => 10 * n + (c.toNat - 48)) 0)
  else none

/-- Modelled from the spec: a date cell parses iff it denotes a day
number. -/
def parseDate (s : String) : Option Nat := parseNumeral s

/-- Modelled from the spec: a money/amount cell parses to an exact
rational. -/
def parseAmount (s : String) : Option ℚ :=
  (parseNumeral s).map (fun n => (n : ℚ))

/-- Modelled from the spec: one CSV data row coerced to an `OrderRecord`.
Only the three date columns can fail (`none` exactly when a date cell is
absent or unparsable); every other column retains its literal content under
a total coercion — the spec names MalformedInput conditions as exactly
"required columns absent or date columns unparsable" and disclaims any
validation of the CSV schema beyond column presence, so no other cell can
fail the loader. -/
def parseRow (header row : List String) : Option Row := do
  let od ← (getCell header row "order_date").bind parseDate
  let sd ← (getCell header row "ship_date").bind parseDate
  let dd ← (getCell header row "delivery_date").bind parseDate
  pure ⟨((getCell header row "order_id").bind parseNumeral).getD 0,
        od, sd, dd,
        ((getCell header row "units_sold").bind parseNumeral).getD 0,
        ((getCell header row "unit_price").bind parseAmount).getD 0,
        ((getCell header row "shipping_cost").bind parseAmount).getD 0,
        ((getCell header row "fulfillment_cost").bind parseAmount).getD 0,
        (getCell header row "delivery_status").getD "",
        (getCell header row "region").getD "",
        (getCell header row "warehouse_id").getD "",
        (getCell header row "product_category").getD ""⟩

/-- Modelled from the spec: all data rows coerced in order; `none` as soon
as any row fails to parse (no partial processing of a malformed table). -/
def parseRows (header : List String) : List (List String) → Option Table
  | [] => some []
  | row :: rest => do
    let r ← parseRow header row
    let t ← parseRows header rest
    pure (r :: t)

/-- Modelled from the spec: `load_data` (lines 16-20) parses the uploaded
CSV into a table, failing with `MalformedInput` when a required column is
absent or a cell — in particular a date cell — does not parse; the condition
propagates to the caller instead of being swallowed. -/
def load_data (csv : CSV) : Except LoadError Table :=
  if requiredColumns.all (fun c => csv.header.contains c) then
    match parseRows csv.header csv.rows with
    | some t => Except.ok t
    | none => Except.error LoadError.malformedInput
  else Except.error LoadError.malformedInput

/-- The module-level logic (lines 217-238): no upload is the informational
missing-input state; a loader failure propagates as the error of the run
(nothing downstream executes); otherwise the loaded table is filtered and
rendered. -/
def runApp (upload : Option CSV) (regions warehouses categories : List String)
    (dateRange : DateInput) : Except LoadError RenderOutcome :=
  match upload with
  | none => Except.ok RenderOutcome.missingInput
  | some csv =>
    match load_data csv with
    | Except.error e => Except.error e
    | Except.ok df => Except.ok (renderLoaded df regions warehouses categories dateRange)

/-- A CSV upload whose `order_date` cell is not a parsable date. -/
def badDateCSV : CSV :=
  ⟨requiredColumns,
   [["1", "x", "2", "3", "4", "5", "6", "7", "Late", "US", "W1", "Electronics"]]⟩

/-- A well-formed CSV upload: all required columns present, all date cells
parsable (its one data row denotes the first section-8 example row). -/
def goodCSV : CSV :=
  ⟨requiredColumns,
   [["1", "1", "1", "2", "2", "10", "1", "1", "Late", "US", "W1", "Electronics"]]⟩

/-! ### Mutable-dataframe model (for the copy-on-entry discipline)

`kpi_section` (line 24) and `charts_section` (line 49) start with
`df = df.copy()` and then assign derived columns in place;
`sidebar_filters` returns `df.loc[mask].copy()` (line 212).  To reason about
what those in-place assignments can touch, dataframes live in an explicit
heap of numbered frames: `df.copy()` allocates a fresh frame, and a column
assignment mutates exactly the frame it is applied to. -/

/-- A dataframe row: the source columns plus the five derived columns,
each present only once assigned. -/
structure ERow where
  core : Row
  order_value_col : Option ℚ
  total_cost_col : Option ℚ
  profit_col : Option ℚ
  delivery_days_col : Option Int
  is_late_col : Option Bool
deriving DecidableEq, Repr

/-- A freshly loaded row: no derived columns yet. -/
def ERow.ofRow (r : Row) : ERow := ⟨r, none, none, none, none, none⟩

abbrev Frame := List ERow

/-- The heap of live dataframes: numbered frames plus the next fresh id. -/
structure Heap where
  frames : List (Nat × Frame)
  next : Nat
deriving DecidableEq, Repr

/-- The frame bound to id `i` in an association list of frames. -/
def lookupFrames (i : Nat) : List (Nat × Frame) → Option Frame
  | [] => none
  | p :: ps => if p.1 = i then some p.2 else lookupFrames i ps

/-- Rebind the frame at id `i` through `g`, leaving every other id alone. -/
def updateFrames (i : Nat) (g : Frame → Frame) :
    List (Nat × Frame) → List (Nat × Frame)
  | [] => []
  | p :: ps => (if p.1 = i then (p.1, g p.2) else p) :: updateFrames i g ps

/-- The frame currently bound to id `i`. -/
def Heap.lookup (h : Heap) (i : Nat) : Option Frame :=
  lookupFrames i h.frames

/-- Bind a new frame to a fresh id. -/
def Heap.alloc (h : Heap) (f : Frame) : Heap × Nat :=
  (⟨(h.next, f) :: h.frames, h.next + 1⟩, h.next)

/-- `df.copy()`: a fresh frame holding the same rows as frame `i`. -/
def Heap.copy (h : Heap) (i : Nat) : Heap × Nat :=
  h.alloc ((h.lookup i).getD [])

/-- An in-place column assignment `df[col] = ...`: mutates exactly the
frame bound to `i`. -/
def Heap.update (h : Heap) (i : Nat) (g : Frame → Frame) : Heap :=
  ⟨updateFrames i g h.frames, h.next⟩

/-- `df["order_value"] = df["units_sold"] * df["unit_price"]`
(lines 25 and 50). -/
def setOrderValue (f : Frame) : Frame :=
  f.map fun er => { er with order_value_col := some (order_value er.core) }

/-- `df["total_cost"] = df["shipping_cost"] + df["fulfillment_cost"]`
(lines 26 and 124). -/
def setTotalCost (f : Frame) : Frame :=
  f.map fun er => { er with total_cost_col := some (total_cost er.core) }

/-- `df["profit"] = df["order_value"] - df["total_cost"]`
(lines 27 and 125), reading the two previously assigned columns. -/
def setProfit (f : Frame) : Frame :=
  f.map fun er =>
    { er with profit_col := some (er.order_value_col.getD 0 - er.total_cost_col.getD 0) }

/-- `df["delivery_days"] = (df["delivery_date"] - df["ship_date"]).dt.days`
(lines 28 and 51). -/
def setDeliveryDays (f : Frame) : Frame :=
  f.map fun er => { er with delivery_days_col := some (delivery_days er.core) }

/-- `df["is_late"] = df["delivery_status"].eq("Late")` (line 29). -/
def setIsLate (f : Frame) : Frame :=
  f.map fun er => { er with is_late_col := some (is_late er.core) }

/-- `kpi_section` (lines 23-45) over the heap: copy the argument frame,
assign the five derived columns in place on the copy, and reduce the copy to
the six KPIs (the assigned columns agree with the row-level derivations by
construction, so the reduction is `kpi_section` of the copy's rows). -/
def kpi_prog (h : Heap) (i : Nat) : Heap × KPIs :=
  let hc := h.copy i
  let h5 := ((((hc.1.update hc.2 setOrderValue).update hc.2 setTotalCost).update
    hc.2 setProfit).update hc.2 setDeliveryDays).update hc.2 setIsLate
  (h5, kpi_section (((h5.lookup hc.2).getD []).map ERow.core))

/-- The four grouped aggregates handed to the chart renderer. -/
structure ChartsOut where
  ordersByDate : List (Nat × Nat × ℚ)
  revenueByRegion : List (String × ℚ)
  ontimeByWh : List (String × ℚ)
  perfByCat : List (String × ℚ × ℚ × ℚ)
deriving DecidableEq, Repr

/-- `charts_section` (lines 48-153) over the heap: copy the argument frame,
assign `order_value` and `delivery_days` in place, build the first three
aggregates, then assign `total_cost` and `profit` in place (lines 124-125)
and build the category aggregate (as with `kpi_prog`, each aggregate is the
pure aggregation of the copy's rows at that point). -/
def charts_prog (h : Heap) (i : Nat) : Heap × ChartsOut :=
  let hc := h.copy i
  let h2 := (hc.1.update hc.2 setOrderValue).update hc.2 setDeliveryDays
  let rows1 := ((h2.lookup hc.2).getD []).map ERow.core
  let h4 := (h2.update hc.2 setTotalCost).update hc.2 setProfit
  let rows2 := ((h4.lookup hc.2).getD []).map ERow.core
  (h4, ⟨orders_by_date rows1, revenue_by_region rows1, ontime_by_wh rows1,
    perf_by_cat rows2⟩)

/-- `sidebar_filters` (lines 156-212) over the heap: select the rows of
frame `i` passing the mask and bind `df.loc[mask].copy()` to a fresh
frame. -/
def sidebar_prog (h : Heap) (i : Nat)
    (regions warehouses categories : List String) (dateRange : DateInput) :
    Heap × Nat :=
  let f := (h.lookup i).getD []
  let rows := f.map ERow.core
  let se := normalizeDateRange (minDate rows) (maxDate rows) dateRange
  h.alloc (f.filter fun er =>
    rowMask ⟨regions, warehouses, categories, se.1, se.2⟩ er.core)

/-- The module-level orchestration (lines 230-238) over the heap: filter,
then on a non-empty result run the KPI stage and the charts stage in
sequence on the filtered frame. -/
def main_prog (h : Heap) (i : Nat)
    (regions warehouses categories : List String) (dateRange : DateInput) :
    Heap × RenderOutcome :=
  let sf := sidebar_prog h i regions warehouses categories dateRange
  let filtered := ((sf.1.lookup sf.2).getD []).map ERow.core
  if filtered.length = 0 then (sf.1, RenderOutcome.noData)
  else
    let k := kpi_prog sf.1 sf.2
    let ch := charts_prog k.1 sf.2
    (ch.1, RenderOutcome.dashboard filtered.length k.2 ch.2.ordersByDate
      ch.2.revenueByRegion ch.2.ontimeByWh ch.2.perfByCat)

/-- A one-frame heap holding the section-8 example table. -/
def exHeap : Heap := ⟨[(0, exTable.map ERow.ofRow)], 1⟩

/-! ### Helper lemmas about group keys and grouped sums -/

theorem groupKeys_nodup {K : Type} [LinearOrder K] (keyOf : Row → K)
    (t : Table) : (groupKeys keyOf t).Nodup :=
  ((List.perm_insertionSort _ _).nodup_iff).2 (List.nodup_dedup _)

theorem groupKeys_sorted {K : Type} [LinearOrder K] (keyOf : Row → K)
    (t : Table) : (groupKeys keyOf t).Sorted (· < ·) :=
  List.Sorted.lt_of_le (List.sorted_insertionSort _ _) (groupKeys_nodup keyOf t)

theorem mem_groupKeys {K : Type} [LinearOrder K] {keyOf : Row → K}
    {t : Table} {r : Row} (hr : r ∈ t) : keyOf r ∈ groupKeys keyOf t := by
  unfold groupKeys
  rw [List.mem_insertionSort, List.mem_dedup]
  exact List.mem_map_of_mem keyOf hr

theorem exists_of_mem_groupKeys {K : Type} [LinearOrder K] {keyOf : Row → K}
    {t : Table} {k : K} (hk : k ∈ groupKeys keyOf t) :
    ∃ r ∈ t, keyOf r = k := by
  unfold groupKeys at hk
  rw [List.mem_insertionSort, List.mem_dedup, List.mem_map] at hk
  exact hk

theorem map_fst_map_pair {K β : Type} (ks : List K) (f : K → β) :
    ((ks.map fun k => (k, f k)).map Prod.fst) = ks := by
  simp [List.map_map, Function.comp_def]

theorem sum_map_zero {K : Type} (ks : List K) :
    (ks.map fun _ => (0 : ℚ)).sum = 0 := by
  induction ks with
  | nil => simp
  | cons a l ih => simp [ih]

theorem sum_map_add {K : Type} (ks : List K) (g h : K → ℚ) :
    (ks.map fun k => g k + h k).sum = (ks.map g).sum + (ks.map h).sum := by
  induction ks with
  | nil => simp
  | cons a l ih => simp only [List.map_cons, List.sum_cons, ih]; ring

theorem sum_map_ite_single {K : Type} [DecidableEq K] (a : K) (v : ℚ) :
    ∀ ks : List K, ks.Nodup → a ∈ ks →
      (ks.map fun k => if a = k then v else 0).sum = v := by
  intro ks
  induction ks with
  | nil => intro _ h; exact absurd h (List.not_mem_nil a)
  | cons b l ih =>
    intro hnd hmem
    rw [List.nodup_cons] at hnd
    rcases List.mem_cons.1 hmem with h | h
    · subst h
      have hz : (l.map fun k => if a = k then v else 0).sum = 0 := by
        refine List.sum_eq_zero fun x hx => ?_
        rcases List.mem_map.1 hx with ⟨k, hk, rfl⟩
        have : a ≠ k := fun he => hnd.1 (he ▸ hk)
        simp [this]
      simp [hz]
    · have hab : a ≠ b := fun he => (List.nodup_cons.1 (by exact List.nodup_cons.2 hnd)).1 (he ▸ h)
      simp only [List.map_cons, List.sum_cons, if_neg hab, zero_add]
      exact ih hnd.2 h

/-- Partition identity: summing a rational row function group-by-group over
any duplicate-free, complete list of group keys gives the sum over the whole
table. -/
theorem sum_groups {K : Type} [DecidableEq K] (keyOf : Row → K) (f : Row → ℚ) :
    ∀ (t : Table) (ks : List K), ks.Nodup → (∀ r ∈ t, keyOf r ∈ ks) →
      (ks.map fun k => ((groupRows keyOf k t).map f).sum).sum = (t.map f).sum := by
  intro t
  induction t with
  | nil =>
    intro ks _ _
    simp [groupRows, sum_map_zero]
  | cons r t' ih =>
    intro ks hnd hcomp
    have hstep : ∀ k : K,
        ((groupRows keyOf k (r :: t')).map f).sum =
          (if keyOf r = k then f r else 0) +
            ((groupRows keyOf k t').map f).sum := by
      intro k
      by_cases h : keyOf r = k
      · simp [groupRows, List.filter_cons, h]
      · simp [groupRows, List.filter_cons, h]
    calc (ks.map fun k => ((groupRows keyOf k (r :: t')).map f).sum).sum
        = (ks.map fun k =>
            (if keyOf r = k then f r else 0) +
              ((groupRows keyOf k t').map f).sum).sum := by
          exact congrArg List.sum (List.map_congr_left fun k _ => hstep k)
      _ = (ks.map fun k => if keyOf r = k then f r else 0).sum +
            (ks.map fun k => ((groupRows keyOf k t').map f).sum).sum :=
          sum_map_add ks _ _
      _ = f r + ((t'.map f)).sum := by
          rw [sum_map_ite_single (keyOf r) (f r) ks hnd
              (hcomp r (List.mem_cons_self r t')),
            ih ks hnd fun x hx => hcomp x (List.mem_cons_of_mem r hx)]
      _ = ((r :: t').map f).sum := by simp

theorem parseRow_dates (header row : List String) (r : Row)
    (h : parseRow header row = some r) :
    (getCell header row "order_date").bind parseDate = some r.order_date ∧
    (getCell header row "ship_date").bind parseDate = some r.ship_date ∧
    (getCell header row "delivery_date").bind parseDate = some r.delivery_date := by
  simp only [parseRow, bind, Option.bind_eq_some, Option.pure_def,
    Option.some.injEq] at h
  obtain ⟨od, h1, sd, h2, dd, h3, hr⟩ := h
  subst hr
  refine ⟨?_, ?_, ?_⟩ <;> rw [Option.bind_eq_some]
  exacts [h1, h2, h3]

theorem parseRow_ne_none_of_dates (header row : List String) {d1 d2 d3 : Nat}
    (h1 : (getCell header row "order_date").bind parseDate = some d1)
    (h2 : (getCell header row "ship_date").bind parseDate = some d2)
    (h3 : (getCell header row "delivery_date").bind parseDate = some d3) :
    parseRow header row ≠ none := by
  simp [parseRow, bind, h1, h2, h3]

theorem parseRows_isSome (header : List String) :
    ∀ l : List (List String),
      (∀ row ∈ l, parseRow header row ≠ none) →
      ∃ t, parseRows header l = some t := by
  intro l
  induction l with
  | nil => exact fun _ => ⟨[], rfl⟩
  | cons a l ih =>
    intro hall
    rcases hp : parseRow header a with _ | r
    · exact absurd hp (hall a (List.mem_cons_self a l))
    · rcases ih (fun row hrow => hall row (List.mem_cons_of_mem a hrow)) with
        ⟨t, ht⟩
      exact ⟨r :: t, by simp [parseRows, bind, hp, ht]⟩

theorem parseRow_eq_none_of_date_cell_none (header row : List String)
    (hc : ((getCell header row "order_date").bind parseDate = none) ∨
          ((getCell header row "ship_date").bind parseDate = none) ∨
          ((getCell header row "delivery_date").bind parseDate = none)) :
    parseRow header row = none := by
  cases hp : parseRow header row with
  | none => rfl
  | some r =>
    obtain ⟨h1, h2, h3⟩ := parseRow_dates header row r hp
    rcases hc with h | h | h <;> simp_all

theorem parseRows_eq_none (header : List String) :
    ∀ (l : List (List String)) (row : List String), row ∈ l →
      parseRow header row = none → parseRows header l = none := by
  intro l
  induction l with
  | nil => intro row hx; cases hx
  | cons a l ih =>
    intro row hx hfx
    rcases List.mem_cons.1 hx with rfl | hx'
    · simp [parseRows, bind, hfx]
    · cases hfa : parseRow header a <;>
        simp [parseRows, bind, hfa, ih row hx' hfx]

theorem foldl_min_le_init (xs : List Nat) : ∀ a : Nat, xs.foldl min a ≤ a := by
  induction xs with
  | nil => intro a; simp
  | cons x xs ih =>
    intro a
    exact le_trans (ih (min a x)) (min_le_left a x)

theorem foldl_min_le_mem (xs : List Nat) : ∀ a : Nat, ∀ x ∈ xs, xs.foldl min a ≤ x := by
  induction xs with
  | nil => intro a x hx; cases hx
  | cons y ys ih =>
    intro a x hx
    rcases List.mem_cons.1 hx with rfl | hx'
    · exact le_trans (foldl_min_le_init ys (min a x)) (min_le_right a x)
    · exact ih (min a y) x hx'

theorem init_le_foldl_max (xs : List Nat) : ∀ a : Nat, a ≤ xs.foldl max a := by
  induction xs with
  | nil => intro a; simp
  | cons x xs ih =>
    intro a
    exact le_trans (le_max_left a x) (ih (max a x))

theorem mem_le_foldl_max (xs : List Nat) : ∀ a : Nat, ∀ x ∈ xs, x ≤ xs.foldl max a := by
  induction xs with
  | nil => intro a x hx; cases hx
  | cons y ys ih =>
    intro a x hx
    rcases List.mem_cons.1 hx with rfl | hx'
    · exact le_trans (le_max_right a x) (init_le_foldl_max ys (max a x))
    · exact ih (max a y) x hx'

/-- The observed minimum order date bounds every row's order date below. -/
theorem minDate_le_order_date {t : Table} {r : Row} (hr : r ∈ t) :
    minDate t ≤ r.order_date := by
  have hmem : r.order_date ∈ t.map Row.order_date := List.mem_map_of_mem _ hr
  unfold minDate
  rcases hm : t.map Row.order_date with _ | ⟨d, ds⟩
  · rw [hm] at hmem; cases hmem
  · rw [hm] at hmem
    rcases List.mem_cons.1 hmem with he | hmem'
    · rw [he]; exact foldl_min_le_init ds d
    · exact foldl_min_le_mem ds d _ hmem'

/-- The observed maximum order date bounds every row's order date above. -/
theorem order_date_le_maxDate {t : Table} {r : Row} (hr : r ∈ t) :
    r.order_date ≤ maxDate t := by
  have hmem : r.order_date ∈ t.map Row.order_date := List.mem_map_of_mem _ hr
  unfold maxDate
  rcases hm : t.map Row.order_date with _ | ⟨d, ds⟩
  · rw [hm] at hmem; cases hmem
  · rw [hm] at hmem
    rcases List.mem_cons.1 hmem with he | hmem'
    · rw [he]; exact init_le_foldl_max ds d
    · exact mem_le_foldl_max ds d _ hmem'

theorem Heap.lookup_alloc_of_ne (h : Heap) (f : Frame) {j : Nat}
    (hj : j ≠ h.next) : (h.alloc f).1.lookup j = h.lookup j := by
  show lookupFrames j ((h.next, f) :: h.frames) = lookupFrames j h.frames
  rw [lookupFrames, if_neg (Ne.symm hj)]

theorem lookupFrames_update_of_ne {i j : Nat} (g : Frame → Frame)
    (hji : j ≠ i) :
    ∀ l : List (Nat × Frame),
      lookupFrames j (updateFrames i g l) = lookupFrames j l := by
  intro l
  induction l with
  | nil => rfl
  | cons a l ih =>
    rw [updateFrames]
    by_cases hai : a.1 = i
    · have haj : a.1 ≠ j := fun he => hji (he ▸ hai)
      rw [if_pos hai, lookupFrames, lookupFrames]
      dsimp only
      rw [if_neg haj, if_neg haj]
      exact ih
    · rw [if_neg hai, lookupFrames, lookupFrames]
      by_cases haj : a.1 = j
      · rw [if_pos haj, if_pos haj]
      · rw [if_neg haj, if_neg haj]
        exact ih

theorem Heap.lookup_update_of_ne (h : Heap) (g : Frame → Frame) {i j : Nat}
    (hji : j ≠ i) : (h.update i g).lookup j = h.lookup j := by
  show lookupFrames j (updateFrames i g h.frames) = lookupFrames j h.frames
  exact lookupFrames_update_of_ne g hji h.frames

/-- The KPI stage only allocates a fresh copy and mutates that copy: every
previously live frame id is untouched, and exactly one id is consumed. -/
theorem kpi_prog_preserves (h : Heap) (i : Nat) {j : Nat} (hj : j < h.next) :
    (kpi_prog h i).1.lookup j = h.lookup j ∧
    (kpi_prog h i).1.next = h.next + 1 := by
  have hne : j ≠ h.next := Nat.ne_of_lt hj
  refine ⟨?_, rfl⟩
  show (((((((h.alloc ((h.lookup i).getD [])).1.update h.next
      setOrderValue).update h.next setTotalCost).update h.next
      setProfit).update h.next setDeliveryDays).update h.next
      setIsLate)).lookup j = h.lookup j
  rw [Heap.lookup_update_of_ne _ _ hne, Heap.lookup_update_of_ne _ _ hne,
    Heap.lookup_update_of_ne _ _ hne, Heap.lookup_update_of_ne _ _ hne,
    Heap.lookup_update_of_ne _ _ hne, Heap.lookup_alloc_of_ne _ _ hne]

/-- The charts stage only allocates a fresh copy and mutates that copy. -/
theorem charts_prog_preserves (h : Heap) (i : Nat) {j : Nat}
    (hj : j < h.next) :
    (charts_prog h i).1.lookup j = h.lookup j ∧
    (charts_prog h i).1.next = h.next + 1 := by
  have hne : j ≠ h.next := Nat.ne_of_lt hj
  refine ⟨?_, rfl⟩
  show ((((((h.alloc ((h.lookup i).getD [])).1.update h.next
      setOrderValue).update h.next setDeliveryDays).update h.next
      setTotalCost).update h.next setProfit)).lookup j = h.lookup j
  rw [Heap.lookup_update_of_ne _ _ hne, Heap.lookup_update_of_ne _ _ hne,
    Heap.lookup_update_of_ne _ _ hne, Heap.lookup_update_of_ne _ _ hne,
    Heap.lookup_alloc_of_ne _ _ hne]

/-- The filter stage only allocates the filtered copy. -/
theorem sidebar_prog_preserves (h : Heap) (i : Nat)
    (regions warehouses categories : List String) (dr : DateInput) {j : Nat}
    (hj : j < h.next) :
    (sidebar_prog h i regions warehouses categories dr).1.lookup j =
      h.lookup j ∧
    (sidebar_prog h i regions warehouses categories dr).1.next = h.next + 1 ∧
    (sidebar_prog h i regions warehouses categories dr).2 = h.next :=
  ⟨Heap.lookup_alloc_of_ne h _ (Nat.ne_of_lt hj), rfl, rfl⟩

/-- The whole render pass leaves every frame live before it untouched. -/
theorem main_prog_preserves (h : Heap) (i : Nat)
    (regions warehouses categories : List String) (dr : DateInput) {j : Nat}
    (hj : j < h.next) :
    (main_prog h i regions warehouses categories dr).1.lookup j =
      h.lookup j := by
  have hs := sidebar_prog_preserves h i regions warehouses categories dr hj
  have hj1 : j < (sidebar_prog h i regions warehouses categories dr).1.next := by
    rw [hs.2.1]
    exact Nat.lt_succ_of_lt hj
  have hk := kpi_prog_preserves
    (sidebar_prog h i regions warehouses categories dr).1
    (sidebar_prog h i regions warehouses categories dr).2 hj1
  have hj2 : j < (kpi_prog (sidebar_prog h i regions warehouses categories dr).1
      (sidebar_prog h i regions warehouses categories dr).2).1.next := by
    rw [hk.2, hs.2.1]
    exact Nat.lt_succ_of_lt (Nat.lt_succ_of_lt hj)
  have hch := charts_prog_preserves
    (kpi_prog (sidebar_prog h i regions warehouses categories dr).1
      (sidebar_prog h i regions warehouses categories dr).2).1
    (sidebar_prog h i regions warehouses categories dr).2 hj2
  simp only [main_prog]
  split
  · exact hs.1
  · rw [hch.1, hk.1, hs.1]

/-- Bounds for the on-time-rate formula on a non-empty table. -/
theorem onTimeRate_bounds (g : Table) (h : g ≠ []) :
    0 ≤ onTimeRate g ∧ onTimeRate g ≤ 100 := by
  have hpos : (0 : ℚ) < (g.length : ℚ) := by
    exact_mod_cast List.length_pos.2 h
  have hle : ((g.filter is_late).length : ℚ) ≤ (g.length : ℚ) := by
    exact_mod_cast List.length_filter_le _ _
  have h0 : (0 : ℚ) ≤ ((g.filter is_late).length : ℚ) := by positivity
  have hm1 : ((g.filter is_late).length : ℚ) / (g.length : ℚ) ≤ 1 :=
    (div_le_one hpos).2 hle
  have hm0 : 0 ≤ ((g.filter is_late).length : ℚ) / (g.length : ℚ) :=
    div_nonneg h0 hpos.le
  unfold onTimeRate
  constructor <;> linarith

end SupplyChain

open SupplyChain

/-- C1: `applyFilter` keeps exactly the rows satisfying all four predicates
conjunctively, preserves source order (the result is a sublist of the
source), and dropping any one of the four predicates can only enlarge or
preserve the result set. -/
theorem c1_filter_conjunctive (t : Table) (c : Criteria) :
    (∀ r : Row, r ∈ applyFilter t c ↔ r ∈ t ∧
      (r.region ∈ c.regions ∧ r.warehouse_id ∈ c.warehouses ∧
       r.product_category ∈ c.categories ∧
       c.start_ts ≤ r.order_date ∧ r.order_date ≤ c.end_ts)) ∧
    (applyFilter t c).Sublist t ∧
    applyFilter t c ⊆ t.filter (rowMaskNoRegion c) ∧
    applyFilter t c ⊆ t.filter (rowMaskNoWarehouse c) ∧
    applyFilter t c ⊆ t.filter (rowMaskNoCategory c) ∧
    applyFilter t c ⊆ t.filter (rowMaskNoDate c) := by
  refine ⟨fun r => ?_, List.filter_sublist t, ?_, ?_, ?_, ?_⟩
  · simp [applyFilter, List.mem_filter, rowMask, and_assoc]
  all_goals
    intro r hr
    simp only [applyFilter, List.mem_filter, rowMask, rowMaskNoRegion,
      rowMaskNoWarehouse, rowMaskNoCategory, rowMaskNoDate,
      Bool.and_eq_true, decide_eq_true_eq] at hr ⊢
    tauto

/-- C4: an empty multiselect in any of the three categorical dimensions
makes the filter mask reject every row, so the filtered table is empty. -/
theorem c4_empty_selection_empty_result (t : Table) (c : Criteria)
    (h : c.regions = [] ∨ c.warehouses = [] ∨ c.categories = []) :
    applyFilter t c = [] := by
  rw [applyFilter, List.filter_eq_nil_iff]
  intro r _
  rcases h with h | h | h <;> simp [rowMask, h]

/-- Witness for C4 at a concrete table and criteria with an empty region
selection. -/
theorem c4_witness :
    applyFilter exTable ⟨[], ["W1", "W2"], ["Electronics"], 1, 1⟩ = [] :=
  c4_empty_selection_empty_result exTable _ (Or.inl rfl)

/-- C2: on the section-8 example table, filtering to region US keeps exactly
the two US rows, and the KPI summarizer on the filtered table returns
2 orders, revenue 40, profit 34 and an on-time rate of 50. -/
theorem c2_example_scenario :
    applyFilter exTable exCriteriaUS = [exRow1, exRow2] ∧
    (kpi_section (applyFilter exTable exCriteriaUS)).total_orders = 2 ∧
    (kpi_section (applyFilter exTable exCriteriaUS)).total_revenue = 40 ∧
    (kpi_section (applyFilter exTable exCriteriaUS)).total_profit = 34 ∧
    (kpi_section (applyFilter exTable exCriteriaUS)).on_time_rate = 50 := by
  have hf : applyFilter exTable exCriteriaUS = [exRow1, exRow2] := by decide
  refine ⟨hf, by decide, ?_, ?_, ?_⟩ <;> rw [hf]
  · simp +decide [kpi_section, order_value, exRow1, exRow2]
    norm_num
  · simp +decide [kpi_section, order_value, profit, total_cost, exRow1, exRow2]
    norm_num
  · simp +decide [kpi_section, onTimeRate, is_late, List.filter, exRow1, exRow2]
    norm_num

/-- C5 counterexample: on the section-8 example table the by-region
aggregate lists its groups as EU, US (pandas `groupby` sorts keys
ascending), not in the first-occurrence order US, EU claimed for the region
grouping. -/
theorem c5_counterexample :
    (revenue_by_region exTable).map Prod.fst ≠
      firstOccurrenceKeys Row.region exTable := by
  have h1 : (revenue_by_region exTable).map Prod.fst = ["EU", "US"] := by
    rw [revenue_by_region, map_fst_map_pair]
    simp [groupKeys, exTable, exRow1, exRow2, exRow3, List.insertionSort,
      List.orderedInsert]
    decide
  have h2 : firstOccurrenceKeys Row.region exTable = ["US", "EU"] := by decide
  rw [h1, h2]
  decide

/-- C5 amended: every grouped output of the aggregation builder lists its
groups sorted strictly ascending by group key — the by-date series ascending
by date as claimed, but the by-region and by-category tables also sorted
ascending by key (pandas `groupby` default `sort=True`), not in
first-occurrence order. -/
theorem c5_grouped_outputs_sorted (t : Table) :
    ((orders_by_date t).map Prod.fst).Sorted (· < ·) ∧
    ((revenue_by_region t).map Prod.fst).Sorted (· < ·) ∧
    ((ontime_by_wh t).map Prod.fst).Sorted (· < ·) ∧
    ((perf_by_cat t).map Prod.fst).Sorted (· < ·) := by
  refine ⟨?_, ?_, ?_, ?_⟩ <;>
    · first
        | rw [orders_by_date, map_fst_map_pair]
        | rw [revenue_by_region, map_fst_map_pair]
        | rw [ontime_by_wh, map_fst_map_pair]
        | rw [perf_by_cat, map_fst_map_pair]
      exact groupKeys_sorted _ t

/-- C6: the revenue column of the by-region aggregate sums to the total
`order_value` of the filtered table — grouping by region neither loses nor
double-counts any row. -/
theorem c6_aggregate_conservation (t : Table) :
    ((revenue_by_region t).map (fun p => p.2)).sum = (t.map order_value).sum := by
  have h := sum_groups Row.region order_value t (groupKeys Row.region t)
    (groupKeys_nodup Row.region t) (fun r hr => mem_groupKeys hr)
  calc ((revenue_by_region t).map (fun p => p.2)).sum
      = ((groupKeys Row.region t).map
          fun k => ((groupRows Row.region k t).map order_value).sum).sum := by
        rw [revenue_by_region, List.map_map]; rfl
    _ = (t.map order_value).sum := h

/-- C9: on any non-empty filtered table the KPI on-time rate lies in
`[0, 100]`, and every per-warehouse on-time rate in the by-warehouse
aggregate lies in `[0, 100]`. -/
theorem c9_on_time_rate_bounds (t : Table) (h : t ≠ []) :
    (0 ≤ (kpi_section t).on_time_rate ∧ (kpi_section t).on_time_rate ≤ 100) ∧
    ∀ p ∈ ontime_by_wh t, 0 ≤ p.2 ∧ p.2 ≤ 100 := by
  constructor
  · exact onTimeRate_bounds t h
  · intro p hp
    rcases List.mem_map.1 hp with ⟨k, hk, rfl⟩
    rcases exists_of_mem_groupKeys hk with ⟨r, hr, hkey⟩
    have hmem : r ∈ groupRows Row.warehouse_id k t := by
      rw [groupRows, List.mem_filter]
      exact ⟨hr, by simp [hkey]⟩
    exact onTimeRate_bounds _ (List.ne_nil_of_mem hmem)

/-- C3: the date-range widget value normalizes to a point interval for a
single date, to the interval itself for a two-element tuple, and to the full
observed date span in every other case; the fallback span contains every
row's order date, so under any malformed range no row that passes the three
categorical predicates is dropped by the date predicate. -/
theorem c3_date_range_normalization (t : Table) :
    (∀ d, normalizeDateRange (minDate t) (maxDate t) (DateInput.single d) = (d, d)) ∧
    (∀ s e, normalizeDateRange (minDate t) (maxDate t) (DateInput.tuple [s, e]) = (s, e)) ∧
    (∀ d, normalizeDateRange (minDate t) (maxDate t) (DateInput.tuple [d]) = (d, d)) ∧
    (∀ ds : List Nat, ds.length ≠ 1 → ds.length ≠ 2 →
      normalizeDateRange (minDate t) (maxDate t) (DateInput.tuple ds) =
        (minDate t, maxDate t)) ∧
    (∀ (regions warehouses categories : List String) (ds : List Nat),
      ds.length ≠ 1 → ds.length ≠ 2 → ∀ r ∈ t,
      regions.contains r.region → warehouses.contains r.warehouse_id →
      categories.contains r.product_category →
      r ∈ sidebar_filters t regions warehouses categories (DateInput.tuple ds)) := by
  have hfall : ∀ ds : List Nat, ds.length ≠ 1 → ds.length ≠ 2 →
      normalizeDateRange (minDate t) (maxDate t) (DateInput.tuple ds) =
        (minDate t, maxDate t) := by
    intro ds h1 h2
    match ds with
    | [] => rfl
    | [d] => exact absurd rfl h1
    | [s, e] => exact absurd rfl h2
    | a :: b :: c :: rest => rfl
  refine ⟨fun d => rfl, fun s e => rfl, fun d => rfl, hfall, ?_⟩
  intro regions warehouses categories ds h1 h2 r hr hreg hwh hcat
  rw [sidebar_filters, hfall ds h1 h2, applyFilter, List.mem_filter]
  refine ⟨hr, ?_⟩
  simp only [rowMask, Bool.and_eq_true, decide_eq_true_eq]
  exact ⟨⟨⟨⟨hreg, hwh⟩, hcat⟩, minDate_le_order_date hr⟩, order_date_le_maxDate hr⟩

/-- Witness for C3: the empty (malformed) tuple falls back to the full span
on the section-8 example table, and the EU row is kept by the filter. -/
theorem c3_witness :
    normalizeDateRange (minDate exTable) (maxDate exTable) (DateInput.tuple []) =
      (minDate exTable, maxDate exTable) ∧
    exRow3 ∈ sidebar_filters exTable ["EU"] ["W1"] ["Books"] (DateInput.tuple []) :=
  ⟨(c3_date_range_normalization exTable).2.2.2.1 [] (by decide) (by decide),
   (c3_date_range_normalization exTable).2.2.2.2 ["EU"] ["W1"] ["Books"] []
     (by decide) (by decide) exRow3 (by decide) (by decide) (by decide) (by decide)⟩

/-- C7: whenever the sidebar filter yields zero rows the orchestration
reports the no-data state — whose constructor carries no KPI or aggregate
values, so neither the KPI summarizer nor the aggregation builder runs — and
in particular criteria selecting a region with no observed rows always end
in the no-data state. -/
theorem c7_empty_filter_short_circuit (df : Table)
    (regions warehouses categories : List String) (dr : DateInput) :
    (sidebar_filters df regions warehouses categories dr = [] →
      renderLoaded df regions warehouses categories dr = RenderOutcome.noData) ∧
    ((∀ r ∈ df, ¬ regions.contains r.region) →
      renderLoaded df regions warehouses categories dr = RenderOutcome.noData) := by
  constructor
  · intro h
    rw [renderLoaded]
    simp [h]
  · intro h
    have hempty : sidebar_filters df regions warehouses categories dr = [] := by
      rw [sidebar_filters, applyFilter, List.filter_eq_nil_iff]
      intro r hr
      simp only [rowMask, Bool.and_eq_true, decide_eq_true_eq, not_and]
      intro hx
      exact absurd hx.1.1.1 (h r hr)
    rw [renderLoaded]
    simp [hempty]

/-- Witness for C7: selecting the unobserved region AP on the section-8
example table terminates in the no-data state. -/
theorem c7_witness :
    renderLoaded exTable ["AP"] ["W1", "W2"] ["Electronics", "Books"]
      (DateInput.tuple [1, 1]) = RenderOutcome.noData :=
  (c7_empty_filter_short_circuit exTable ["AP"] ["W1", "W2"]
    ["Electronics", "Books"] (DateInput.tuple [1, 1])).2 (by decide)

/-- C8: the loader fails with `MalformedInput` when a required column is
absent from the header or any date cell is unparsable; the failure
propagates through the app run as an error, so no filtering, KPI or
aggregation computation produces a rendered outcome from a malformed table;
otherwise — all required columns present and every date cell parsable — the
loader returns a table, and every parsed row carries the three date columns
as the parsed values of its date cells. -/
theorem c8_loader_error_handling (csv : CSV)
    (regions warehouses categories : List String) (dr : DateInput) :
    (¬ (∀ c ∈ requiredColumns, csv.header.contains c = true) →
      load_data csv = Except.error LoadError.malformedInput) ∧
    ((∃ row ∈ csv.rows,
        (getCell csv.header row "order_date").bind parseDate = none ∨
        (getCell csv.header row "ship_date").bind parseDate = none ∨
        (getCell csv.header row "delivery_date").bind parseDate = none) →
      load_data csv = Except.error LoadError.malformedInput) ∧
    (∀ e, load_data csv = Except.error e →
      runApp (some csv) regions warehouses categories dr = Except.error e) ∧
    (∀ tbl, load_data csv = Except.ok tbl →
      parseRows csv.header csv.rows = some tbl) ∧
    (∀ row r, parseRow csv.header row = some r →
      (getCell csv.header row "order_date").bind parseDate = some r.order_date ∧
      (getCell csv.header row "ship_date").bind parseDate = some r.ship_date ∧
      (getCell csv.header row "delivery_date").bind parseDate = some r.delivery_date) ∧
    ((∀ c ∈ requiredColumns, csv.header.contains c = true) →
      (∀ row ∈ csv.rows,
        (getCell csv.header row "order_date").bind parseDate ≠ none ∧
        (getCell csv.header row "ship_date").bind parseDate ≠ none ∧
        (getCell csv.header row "delivery_date").bind parseDate ≠ none) →
      ∃ tbl, load_data csv = Except.ok tbl ∧
        parseRows csv.header csv.rows = some tbl) := by
  have hmissing : ¬ (∀ c ∈ requiredColumns, csv.header.contains c = true) →
      load_data csv = Except.error LoadError.malformedInput := by
    intro h
    rw [load_data, if_neg]
    intro hall
    exact h ((List.all_eq_true).1 hall)
  refine ⟨hmissing, ?_, ?_, ?_, fun row r => parseRow_dates csv.header row r, ?_⟩
  · rintro ⟨row, hrow, hdate⟩
    by_cases hall : ∀ c ∈ requiredColumns, csv.header.contains c = true
    · have hnone : parseRows csv.header csv.rows = none :=
        parseRows_eq_none csv.header csv.rows row hrow
          (parseRow_eq_none_of_date_cell_none csv.header row hdate)
      rw [load_data, if_pos ((List.all_eq_true).2 hall), hnone]
    · exact hmissing hall
  · intro e h
    simp [runApp, h]
  · intro tbl h
    rw [load_data] at h
    by_cases hall : requiredColumns.all (fun c => csv.header.contains c) = true
    · rw [if_pos hall] at h
      cases hp : parseRows csv.header csv.rows with
      | none => rw [hp] at h; cases h
      | some t => rw [hp] at h; cases h; rfl
    · rw [if_neg hall] at h; cases h
  · intro hall hdates
    have hrows : ∀ row ∈ csv.rows, parseRow csv.header row ≠ none := by
      intro row hrow
      obtain ⟨h1, h2, h3⟩ := hdates row hrow
      rcases hd1 : (getCell csv.header row "order_date").bind parseDate with
        _ | d1
      · exact absurd hd1 h1
      rcases hd2 : (getCell csv.header row "ship_date").bind parseDate with
        _ | d2
      · exact absurd hd2 h2
      rcases hd3 : (getCell csv.header row "delivery_date").bind parseDate with
        _ | d3
      · exact absurd hd3 h3
      exact parseRow_ne_none_of_dates csv.header row hd1 hd2 hd3
    rcases parseRows_isSome csv.header csv.rows hrows with ⟨t, ht⟩
    refine ⟨t, ?_, ht⟩
    rw [load_data, if_pos ((List.all_eq_true).2 hall), ht]

/-- Witness for C8: a CSV whose `order_date` cell is unparsable is rejected
by the loader and the whole run propagates the malformed-input error, while
a well-formed CSV — all required columns present, all date cells parsable —
is loaded successfully. -/
theorem c8_witness :
    (load_data badDateCSV = Except.error LoadError.malformedInput ∧
      runApp (some badDateCSV) [] [] [] (DateInput.single 0) =
        Except.error LoadError.malformedInput) ∧
    (∃ tbl, load_data goodCSV = Except.ok tbl ∧
      parseRows goodCSV.header goodCSV.rows = some tbl) := by
  have h := c8_loader_error_handling badDateCSV [] [] [] (DateInput.single 0)
  have herr : load_data badDateCSV = Except.error LoadError.malformedInput :=
    h.2.1 ⟨["1", "x", "2", "3", "4", "5", "6", "7", "Late", "US", "W1",
      "Electronics"], by decide, Or.inl (by decide)⟩
  refine ⟨⟨herr, h.2.2.1 LoadError.malformedInput herr⟩, ?_⟩
  exact (c8_loader_error_handling goodCSV [] [] []
    (DateInput.single 0)).2.2.2.2.2 (by decide) (by decide)

/-- C10: no downstream stage mutates its input frame.  After a full render
pass the source frame is bound to exactly the frame it held before; and the
filtered frame produced by the filter stage is unchanged by the KPI stage
and by the charts stage, so the charts stage reads exactly the filtered rows
the KPI stage read — each stage only allocates and mutates its own
`df.copy()`. -/
theorem c10_stages_do_not_mutate_inputs (h : Heap) (i : Nat)
    (regions warehouses categories : List String) (dr : DateInput)
    (hi : i < h.next) :
    (main_prog h i regions warehouses categories dr).1.lookup i =
      h.lookup i ∧
    (kpi_prog (sidebar_prog h i regions warehouses categories dr).1
        (sidebar_prog h i regions warehouses categories dr).2).1.lookup
        (sidebar_prog h i regions warehouses categories dr).2 =
      (sidebar_prog h i regions warehouses categories dr).1.lookup
        (sidebar_prog h i regions warehouses categories dr).2 ∧
    (charts_prog
        (kpi_prog (sidebar_prog h i regions warehouses categories dr).1
          (sidebar_prog h i regions warehouses categories dr).2).1
        (sidebar_prog h i regions warehouses categories dr).2).1.lookup
        (sidebar_prog h i regions warehouses categories dr).2 =
      (sidebar_prog h i regions warehouses categories dr).1.lookup
        (sidebar_prog h i regions warehouses categories dr).2 := by
  have h1 : (sidebar_prog h i regions warehouses categories dr).2 <
      (sidebar_prog h i regions warehouses categories dr).1.next :=
    Nat.lt_succ_self h.next
  have hkpi := kpi_prog_preserves
    (sidebar_prog h i regions warehouses categories dr).1
    (sidebar_prog h i regions warehouses categories dr).2 h1
  have h2 : (sidebar_prog h i regions warehouses categories dr).2 <
      (kpi_prog (sidebar_prog h i regions warehouses categories dr).1
        (sidebar_prog h i regions warehouses categories dr).2).1.next :=
    Nat.lt_succ_of_lt (Nat.lt_succ_self h.next)
  have hch := charts_prog_preserves
    (kpi_prog (sidebar_prog h i regions warehouses categories dr).1
      (sidebar_prog h i regions warehouses categories dr).2).1
    (sidebar_prog h i regions warehouses categories dr).2 h2
  exact ⟨main_prog_preserves h i regions warehouses categories dr hi,
    hkpi.1, hch.1.trans hkpi.1⟩

/-- Witness for C10 on a one-frame heap holding the section-8 example
table. -/
theorem c10_witness :
    (main_prog exHeap 0 ["US"] ["W1", "W2"] ["Electronics", "Books"]
        (DateInput.tuple [1, 1])).1.lookup 0 = exHeap.lookup 0 ∧
    (kpi_prog (sidebar_prog exHeap 0 ["US"] ["W1", "W2"]
        ["Electronics", "Books"] (DateInput.tuple [1, 1])).1
        (sidebar_prog exHeap 0 ["US"] ["W1", "W2"] ["Electronics", "Books"]
          (DateInput.tuple [1, 1])).2).1.lookup
        (sidebar_prog exHeap 0 ["US"] ["W1", "W2"] ["Electronics", "Books"]
          (DateInput.tuple [1, 1])).2 =
      (sidebar_prog exHeap 0 ["US"] ["W1", "W2"] ["Electronics", "Books"]
          (DateInput.tuple [1, 1])).1.lookup
        (sidebar_prog exHeap 0 ["US"] ["W1", "W2"] ["Electronics", "Books"]
          (DateInput.tuple [1, 1])).2 ∧
    (charts_prog (kpi_prog (sidebar_prog exHeap 0 ["US"] ["W1", "W2"]
          ["Electronics", "Books"] (DateInput.tuple [1, 1])).1
        (sidebar_prog exHeap 0 ["US"] ["W1", "W2"] ["Electronics", "Books"]
          (DateInput.tuple [1, 1])).2).1
        (sidebar_prog exHeap 0 ["US"] ["W1", "W2"] ["Electronics", "Books"]
          (DateInput.tuple [1, 1])).2).1.lookup
        (sidebar_prog exHeap 0 ["US"] ["W1", "W2"] ["Electronics", "Books"]
          (DateInput.tuple [1, 1])).2 =
      (sidebar_prog exHeap 0 ["US"] ["W1", "W2"] ["Electronics", "Books"]
          (DateInput.tuple [1, 1])).1.lookup
        (sidebar_prog exHeap 0 ["US"] ["W1", "W2"] ["Electronics", "Books"]
          (DateInput.tuple [1, 1])).2 :=
  c10_stages_do_not_mutate_inputs exHeap 0 ["US"] ["W1", "W2"]
    ["Electronics", "Books"] (DateInput.tuple [1, 1]) (by decide)

/-- Witness for C9 at the section-8 example table. -/
theorem c9_witness :
    (0 ≤ (kpi_section exTable).on_time_rate ∧
      (kpi_section exTable).on_time_rate ≤ 100) ∧
    ∀ p ∈ ontime_by_wh exTable, 0 ≤ p.2 ∧ p.2 ≤ 100 :=
  c9_on_time_rate_bounds exTable (by decide)
